import Mathlib

/-!
Verification development for the tree-survey application: a shallow embedding
of its data model (types.ts, constants.ts), orchestrator handlers (App),
annotation form (AnnotationModal.tsx), street-level view state machine
(components/StreetView.tsx), and the tabular codec used for export/import.
The codec functions (generateCSV/parseCSV, utils/storage.ts) are not present
in the source tree; they are modelled from the specification, as marked on
each definition.
-/

/-- Health condition enumeration from types.ts (TreeHealth). -/
inductive TreeHealth
  | GOOD
  | FAIR
  | CRITICAL
  | DEAD
deriving DecidableEq

/-- Species enumeration from types.ts (TreeSpecies). -/
inductive TreeSpecies
  | OAK
  | MAPLE
  | PINE
  | PALM
  | CHERRY
  | BIRCH
  | OTHER
  | UNKNOWN
deriving DecidableEq

/-- The string value of each TreeHealth member, as declared in types.ts. -/
def healthToString : TreeHealth → String
  | TreeHealth.GOOD => "Good"
  | TreeHealth.FAIR => "Fair"
  | TreeHealth.CRITICAL => "Critical"
  | TreeHealth.DEAD => "Dead"

/-- The string value of each TreeSpecies member, as declared in types.ts. -/
def speciesToString : TreeSpecies → String
  | TreeSpecies.OAK => "Oak"
  | TreeSpecies.MAPLE => "Maple"
  | TreeSpecies.PINE => "Pine"
  | TreeSpecies.PALM => "Palm"
  | TreeSpecies.CHERRY => "Cherry"
  | TreeSpecies.BIRCH => "Birch"
  | TreeSpecies.OTHER => "Other"
  | TreeSpecies.UNKNOWN => "Unknown"

/-- Modelled from the spec: decode maps an unknown species string to the
sentinel value; the sentinel for species is the Unknown member. -/
def speciesOfString (s : String) : TreeSpecies :=
  if s = "Oak" then TreeSpecies.OAK
  else if s = "Maple" then TreeSpecies.MAPLE
  else if s = "Pine" then TreeSpecies.PINE
  else if s = "Palm" then TreeSpecies.PALM
  else if s = "Cherry" then TreeSpecies.CHERRY
  else if s = "Birch" then TreeSpecies.BIRCH
  else if s = "Other" then TreeSpecies.OTHER
  else TreeSpecies.UNKNOWN

/-- Modelled from the spec: decode maps an unknown condition string to a
sentinel value; the sentinel for condition is taken to be Good, the
form's default condition. -/
def healthOfString (s : String) : TreeHealth :=
  if s = "Good" then TreeHealth.GOOD
  else if s = "Fair" then TreeHealth.FAIR
  else if s = "Critical" then TreeHealth.CRITICAL
  else if s = "Dead" then TreeHealth.DEAD
  else TreeHealth.GOOD

/-- Latitude/longitude pair from types.ts (MapLocation).  JavaScript numbers
are modelled as rationals. -/
structure MapLocation where
  lat : ℚ
  lng : ℚ
deriving DecidableEq

/-- One annotated point, from types.ts (TreeRecord).  The optional notes
field is modelled as a string, with the empty string for an absent value. -/
structure TreeRecord where
  id : String
  lat : ℚ
  lng : ℚ
  species : TreeSpecies
  condition : TreeHealth
  dateAdded : String
  notes : String
deriving DecidableEq

/-- The fixed fallback coordinate from constants.ts (DEFAULT_CENTER). -/
def DEFAULT_CENTER : MapLocation :=
  { lat := 28.6328, lng := 77.2197 }

/-! ## Serialization of numbers

Modelled from the spec: the codec writes each coordinate as text and decode
rejects a coordinate field that does not parse as a number.  JavaScript's
lossless number-to-text conversion is modelled by an injective rational
serialization (numerator, a slash, denominator) with an explicit parser. -/

/-- The decimal digit character for a digit value (9 for any value above 9),
via the code point 48 of the zero character. -/
def digitChar (d : Nat) : Char :=
  Char.ofNat (48 + min d 9)

/-- The digit value of a decimal digit character (code points 48 through
57), none for any other character. -/
def digitVal? (c : Char) : Option Nat :=
  if 48 ≤ c.toNat ∧ c.toNat ≤ 57 then some (c.toNat - 48) else none

/-- Most-significant-first decimal digits of a number, with explicit fuel so
that the recursion is structural. -/
def natDigitsAux : Nat → Nat → List Nat
  | 0, _ => []
  | fuel + 1, n => if n < 10 then [n] else natDigitsAux fuel (n / 10) ++ [n % 10]

/-- Most-significant-first decimal digits of a number. -/
def natDigits (n : Nat) : List Nat :=
  natDigitsAux (n + 1) n

/-- Decimal text of a number. -/
def natToChars (n : Nat) : List Char :=
  (natDigits n).map digitChar

/-- Fold decimal digit characters onto an accumulator; none on a non-digit. -/
def parseNatAux : List Char → Nat → Option Nat
  | [], acc => some acc
  | c :: cs, acc =>
    match digitVal? c with
    | some d => parseNatAux cs (acc * 10 + d)
    | none => none

/-- Parse a nonempty all-digit character list as a number. -/
def parseNatChars (cs : List Char) : Option Nat :=
  if cs.isEmpty then none else parseNatAux cs 0

/-- Decimal text of an integer, with a leading minus sign when negative. -/
def intToChars : Int → List Char
  | Int.ofNat n => natToChars n
  | Int.negSucc n => '-' :: natToChars (n + 1)

/-- Parse an optionally minus-signed digit string as an integer. -/
def parseIntChars : List Char → Option Int
  | [] => none
  | c :: rest =>
    if c = '-' then (parseNatChars rest).map (fun n => -(n : Int))
    else (parseNatChars (c :: rest)).map (fun n => (n : Int))

/-- Text of a rational: numerator, a slash, denominator. -/
def ratToChars (q : ℚ) : List Char :=
  intToChars q.num ++ '/' :: natToChars q.den

/-! ## Generic split and join on character lists -/

/-- Split a character list at every occurrence of the separator. -/
def splitCh (sep : Char) : List Char → List (List Char)
  | [] => [[]]
  | c :: cs =>
    if c = sep then [] :: splitCh sep cs
    else
      match splitCh sep cs with
      | [] => [[c]]
      | p :: ps => (c :: p) :: ps

/-- Join parts with the separator between consecutive parts. -/
def joinCh (sep : Char) : List (List Char) → List Char
  | [] => []
  | [p] => p
  | p :: ps => p ++ sep :: joinCh sep ps

/-- Parse a rational written as numerator, slash, denominator. -/
def parseRatChars (cs : List Char) : Option ℚ :=
  match splitCh '/' cs with
  | [a, b] =>
    match parseIntChars a, parseNatChars b with
    | some n, some d => if d = 0 then none else some (mkRat n d)
    | _, _ => none
  | _ => none

/-! ## Tabular codec

Modelled from the spec: utils/storage.ts (generateCSV, parseCSV) is not in
the source tree.  encode produces a delimited text document, a header row
plus one row per point, fields quoted and escaped when they contain the
format's delimiter or quote; decode splits lines (tolerating carriage
returns and a trailing blank line), drops the header, and skips rows that
fail to parse. -/

/-- A character the format must quote: the delimiter, the quote, or a line
break. -/
def isSpecialChar (c : Char) : Bool :=
  c = ',' || c = '"' || c = '\n' || c = '\r'

/-- A character list free of the format's special characters. -/
def cleanChars (l : List Char) : Bool :=
  l.all (fun c => !(isSpecialChar c))

/-- Double every quote character, the format's escaping rule. -/
def escapeQuotes : List Char → List Char
  | [] => []
  | c :: cs => if c = '"' then '"' :: '"' :: escapeQuotes cs else c :: escapeQuotes cs

/-- Encode one field: quote and escape it when it contains a special
character, otherwise emit it verbatim. -/
def encodeField (f : List Char) : List Char :=
  if f.any isSpecialChar then '"' :: (escapeQuotes f ++ ['"']) else f

/-- States of the field-splitting scanner: outside quotes, inside quotes, or
just after a quote character inside a quoted field. -/
inductive SfSt
  | out
  | inQ
  | postQ

/-- Quote-aware splitting of one row into fields, one character at a time;
the current field is accumulated in reverse. -/
def sfAux : SfSt → List Char → List Char → List (List Char)
  | _, cur, [] => [cur.reverse]
  | SfSt.out, cur, c :: cs =>
    if c = '"' then sfAux SfSt.inQ cur cs
    else if c = ',' then cur.reverse :: sfAux SfSt.out [] cs
    else sfAux SfSt.out (c :: cur) cs
  | SfSt.inQ, cur, c :: cs =>
    if c = '"' then sfAux SfSt.postQ cur cs
    else sfAux SfSt.inQ (c :: cur) cs
  | SfSt.postQ, cur, c :: cs =>
    if c = '"' then sfAux SfSt.inQ ('"' :: cur) cs
    else if c = ',' then cur.reverse :: sfAux SfSt.out [] cs
    else sfAux SfSt.out (c :: cur) cs

/-- Split one row into its fields, honouring quoting and escaping. -/
def splitFields (row : List Char) : List (List Char) :=
  sfAux SfSt.out [] row

/-- Drop one trailing carriage return, so both line-feed and
carriage-return line-feed endings are tolerated. -/
def dropCR (l : List Char) : List Char :=
  match l.reverse with
  | c :: rest => if c = '\r' then rest.reverse else l
  | [] => l

/-- The seven fields of one record, in column order. -/
def fieldsOf (r : TreeRecord) : List (List Char) :=
  [r.id.data, ratToChars r.lat, ratToChars r.lng,
   (speciesToString r.species).data, (healthToString r.condition).data,
   r.dateAdded.data, r.notes.data]

/-- One encoded row: the encoded fields joined by the delimiter. -/
def rowChars (r : TreeRecord) : List Char :=
  joinCh ',' ((fieldsOf r).map encodeField)

/-- The header row naming the seven columns. -/
def headerChars : List Char :=
  "id,lat,lng,species,condition,dateAdded,notes".data

/-- Modelled from the spec: generateCSV produces the header row plus one row
per point, rows joined by line feeds. -/
def generateCSV (points : List TreeRecord) : String :=
  String.mk (joinCh '\n' (headerChars :: points.map rowChars))

/-- Parse an exact seven-field list into a record; none on a wrong field
count or an unparseable coordinate; unknown species or condition strings
fall back to their sentinel. -/
def parseFields : List (List Char) → Option TreeRecord
  | [f0, f1, f2, f3, f4, f5, f6] =>
    match parseRatChars f1, parseRatChars f2 with
    | some la, some ln =>
      some { id := String.mk f0, lat := la, lng := ln,
             species := speciesOfString (String.mk f3),
             condition := healthOfString (String.mk f4),
             dateAdded := String.mk f5, notes := String.mk f6 }
    | _, _ => none
  | _ => none

/-- Parse one row: split it into fields and interpret them. -/
def parseRow (row : List Char) : Option TreeRecord :=
  parseFields (splitFields row)

/-- Modelled from the spec: parseCSV splits the text into lines, tolerates
carriage returns, drops the header line, and keeps the rows that parse,
skipping the rest. -/
def parseCSV (text : String) : List TreeRecord :=
  (((splitCh '\n' text.data).map dropCR).drop 1).filterMap parseRow

/-! ## Orchestrator state and handlers, from the App component -/

/-- The two layout modes of the App: map-only, or split with the
street-level panel. -/
inductive ViewMode
  | map
  | street
deriving DecidableEq

/-- The App component's state: the canonical tree list, the modal flag, the
pending clicked location, the device location, the transient toast message,
the layout mode and the street-view position. -/
structure AppState where
  trees : List TreeRecord
  isModalOpen : Bool
  tempLocation : Option MapLocation
  userLocation : Option MapLocation
  viewMode : ViewMode
  streetViewPos : MapLocation
  notification : Option String
deriving DecidableEq

/-- The payload the annotation form passes to the App on save. -/
structure SavePayload where
  species : TreeSpecies
  condition : TreeHealth
  notes : String
deriving DecidableEq

/-- handleMapClick from the App: in split mode a map click moves the street
view, otherwise it records the pending location and opens the modal. -/
def handleMapClick (loc : MapLocation) (s : AppState) : AppState :=
  if s.viewMode = ViewMode.street then
    { s with streetViewPos := loc }
  else
    { s with tempLocation := some loc, isModalOpen := true }

/-- handleStreetViewAnnotate from the App: records the pending location and
opens the modal. -/
def handleStreetViewAnnotate (loc : MapLocation) (s : AppState) : AppState :=
  { s with tempLocation := some loc, isModalOpen := true }

/-- handleCloseModal from the App: closes the modal and discards the
pending location. -/
def handleCloseModal (s : AppState) : AppState :=
  { s with isModalOpen := false, tempLocation := none }

/-- The toast text shown after a save. -/
def savedMsg : String := "Tree labelled successfully!"

/-- The toast text shown for an import with no valid records. -/
def noValidMsg : String := "No valid records found in CSV."

/-- The toast text shown after an import, counting the records of the
imported file. -/
def importMsg (n : Nat) : String :=
  "Imported " ++ toString n ++ " trees."

/-- handleSaveTree from the App: with no pending location it does nothing;
otherwise it appends a record built from the fresh identifier (the
crypto.randomUUID call, modelled as a parameter), the pending location, the
chosen species, condition and notes and the current date, closes the modal
and shows a toast. -/
def handleSaveTree (freshId today : String) (data : SavePayload)
    (s : AppState) : AppState :=
  match s.tempLocation with
  | none => s
  | some loc =>
    { s with
      trees := s.trees ++
        [{ id := freshId, lat := loc.lat, lng := loc.lng,
           species := data.species, condition := data.condition,
           dateAdded := today, notes := data.notes }],
      isModalOpen := false, tempLocation := none,
      notification := some savedMsg }

/-- handleImport from the App: an empty decoded list only shows a toast;
otherwise the imported records whose identifier is not already present are
appended and a toast reports the imported file's record count. -/
def handleImport (importedTrees : List TreeRecord) (s : AppState) : AppState :=
  if importedTrees.length = 0 then
    { s with notification := some noValidMsg }
  else
    { s with
      trees := s.trees ++
        importedTrees.filter
          (fun t => !((s.trees.map TreeRecord.id).contains t.id)),
      notification := some (importMsg importedTrees.length) }

/-- toggleViewMode from the App: from map mode it switches to split mode and
centers the street view on the device location, falling back to the default
center; from split mode it just returns to map mode. -/
def toggleViewMode (s : AppState) : AppState :=
  if s.viewMode = ViewMode.map then
    { s with viewMode := ViewMode.street,
             streetViewPos := s.userLocation.getD DEFAULT_CENTER }
  else
    { s with viewMode := ViewMode.map }

/-- Modelled from the spec: saveTreesToStorage (utils/storage.ts, not in the
source tree) serializes the full current list on every change; the durable
snapshot is the encoded list. -/
def storageSnapshot (s : AppState) : String :=
  generateCSV s.trees

/-! ## Annotation form, from AnnotationModal.tsx -/

/-- The modal's own selection state. -/
structure ModalState where
  species : TreeSpecies
  condition : TreeHealth
  notes : String
deriving DecidableEq

/-- The modal's initial and reset selection state: species Unknown,
condition Good, empty notes. -/
def defaultModalState : ModalState :=
  { species := TreeSpecies.UNKNOWN, condition := TreeHealth.GOOD, notes := "" }

/-- The modal renders content only when it is open and a location is
pending; otherwise the component returns null. -/
def modalVisible (isOpen : Bool) (loc : Option MapLocation) : Bool :=
  isOpen && loc.isSome

/-- handleSubmit from AnnotationModal.tsx: emit the one payload built from
the current selections, then reset the selections to the defaults. -/
def handleSubmit (ms : ModalState) : SavePayload × ModalState :=
  ({ species := ms.species, condition := ms.condition, notes := ms.notes },
   defaultModalState)

/-- A submit event on the modal: when the modal is visible it emits exactly
the one payload of handleSubmit and resets its state; otherwise no form is
rendered, so nothing is emitted and nothing changes. -/
def modalSubmit (isOpen : Bool) (loc : Option MapLocation)
    (ms : ModalState) : Option SavePayload × ModalState :=
  if modalVisible isOpen loc then
    (some (handleSubmit ms).1, (handleSubmit ms).2)
  else
    (none, ms)

/-! ## Street-level view, from components/StreetView.tsx

One run of the loadScene effect (triggered by each change of the requested
coordinate) is modelled as a function of the outcomes of its external
collaborators: whether the viewer library script loaded, what the lookup
service answered, whether a viewer instance already existed, and whether
relocation, construction and the viewer's load event succeed. -/

/-- The status values of the street-level view. -/
inductive Status
  | idle
  | searching
  | loadingViewer
  | ready
  | error
  | noCoverage
deriving DecidableEq

/-- The lookup service's answer for a coordinate: a found image identifier,
an explicit not-found, or a connectivity failure (a thrown fetch or a
non-success response). -/
inductive LookupResult
  | found (imageId : String)
  | notFound
  | fetchFailed
deriving DecidableEq

/-- The external outcomes one loadScene run depends on. -/
structure SceneEnv where
  scriptLoaded : Bool
  lookup : LookupResult
  viewerExists : Bool
  moveSucceeds : Bool
  constructSucceeds : Bool
  loadFires : Bool
deriving DecidableEq

/-- What became of the viewer instance after the run. -/
inductive ViewerFate
  | untouched
  | relocated
  | recreated
  | destroyed
  | created
  | absent
deriving DecidableEq

/-- The statuses set while constructing a fresh viewer: loading-viewer, then
ready once the viewer's load event fires, or error when construction
throws. -/
def constructTrace (e : SceneEnv) : List Status :=
  Status.loadingViewer ::
    (if e.constructSucceeds then
       (if e.loadFires then [Status.ready] else [])
     else [Status.error])

/-- The sequence of statuses one loadScene run sets, in order: a missing
script is an immediate error; otherwise the search starts, and the lookup
answer leads to error, no-coverage, or — for a found image — either a
successful relocation (ready) or the construction path. -/
def sceneTrace (e : SceneEnv) : List Status :=
  if e.scriptLoaded then
    Status.searching ::
      (match e.lookup with
       | LookupResult.fetchFailed => [Status.error]
       | LookupResult.notFound => [Status.noCoverage]
       | LookupResult.found _ =>
         if e.viewerExists && e.moveSucceeds then [Status.ready]
         else constructTrace e)
  else [Status.error]

/-- The status the view is left in after the run. -/
def sceneFinal (e : SceneEnv) : Status :=
  (sceneTrace e).getLastD Status.idle

/-- The viewer instance's fate in one run: with no found image it is left
alone; a successful relocation keeps the instance; a failed relocation
removes it and reconstruction is attempted; with no prior instance a
construction is attempted. -/
def viewerAfter (e : SceneEnv) : ViewerFate :=
  if e.scriptLoaded then
    match e.lookup with
    | LookupResult.found _ =>
      if e.viewerExists then
        if e.moveSucceeds then ViewerFate.relocated
        else if e.constructSucceeds then ViewerFate.recreated
        else ViewerFate.destroyed
      else if e.constructSucceeds then ViewerFate.created
      else ViewerFate.absent
    | _ =>
      if e.viewerExists then ViewerFate.untouched else ViewerFate.absent
  else
    if e.viewerExists then ViewerFate.untouched else ViewerFate.absent

/-- Whether the run logged the relocation-failure warning (the catch branch
of the move call). -/
def moveWarned (e : SceneEnv) : Bool :=
  e.scriptLoaded && e.viewerExists && !e.moveSucceeds &&
    (match e.lookup with
     | LookupResult.found _ => true
     | _ => false)

/-! ## Concrete fixtures used by witnesses and counterexamples -/

/-- The number of genuinely new identifiers an import brings: distinct
imported identifiers not already stored.  This formalizes the claimed
size increase of a set-based de-duplication by identifier. -/
def newIdCount (importedTrees stored : List TreeRecord) : Nat :=
  ((importedTrees.map TreeRecord.id).eraseDups.filter
    (fun i => !((stored.map TreeRecord.id).contains i))).length

/-- A concrete click location. -/
def locW : MapLocation := { lat := 1, lng := 2 }

/-- A concrete stored record. -/
def oldRec : TreeRecord :=
  { id := "a", lat := 3, lng := 4, species := TreeSpecies.PINE,
    condition := TreeHealth.FAIR, dateAdded := "d0", notes := "" }

/-- A concrete record used twice in an import. -/
def dupRec : TreeRecord :=
  { id := "dup", lat := 1, lng := 1, species := TreeSpecies.OAK,
    condition := TreeHealth.GOOD, dateAdded := "d1", notes := "" }

/-- A concrete record with clean text fields. -/
def recW : TreeRecord :=
  { id := "t1", lat := mkRat 573 20, lng := mkRat 154439 2000,
    species := TreeSpecies.OAK, condition := TreeHealth.GOOD,
    dateAdded := "2024-01-01", notes := "near road" }

/-- A concrete base application state in map mode with an empty store. -/
def baseApp : AppState :=
  { trees := [], isModalOpen := false, tempLocation := none,
    userLocation := none, viewMode := ViewMode.map,
    streetViewPos := { lat := 0, lng := 0 }, notification := none }

/-- The base state in split mode. -/
def streetApp : AppState := { baseApp with viewMode := ViewMode.street }

/-- The base state with a known device location. -/
def userApp : AppState := { baseApp with userLocation := some locW }

/-- The base state with one stored record and a pending location. -/
def pendingApp : AppState :=
  { baseApp with trees := [oldRec], tempLocation := some locW }

/-- A concrete save payload. -/
def payloadW : SavePayload :=
  { species := TreeSpecies.MAPLE, condition := TreeHealth.CRITICAL,
    notes := "hollow trunk" }

/-- A run where the lookup finds an image and a fresh viewer is built and
loads. -/
def sceneOkEnv : SceneEnv :=
  { scriptLoaded := true, lookup := LookupResult.found "img1",
    viewerExists := false, moveSucceeds := false,
    constructSucceeds := true, loadFires := true }

/-- A run where relocating the existing viewer fails and the subsequent
reconstruction throws. -/
def moveFailEnv : SceneEnv :=
  { scriptLoaded := true, lookup := LookupResult.found "img2",
    viewerExists := true, moveSucceeds := false,
    constructSucceeds := false, loadFires := false }

/-! ## Lemmas: number serialization round-trips -/

/-- The digits produced with sufficient fuel are nonempty, below ten, and
fold back to the number. -/
lemma natDigitsAux_spec :
    ∀ fuel n, n < fuel →
      natDigitsAux fuel n ≠ [] ∧ (∀ d ∈ natDigitsAux fuel n, d < 10) ∧
        List.foldl (fun a d => a * 10 + d) 0 (natDigitsAux fuel n) = n := by
  intro fuel
  induction fuel with
  | zero => intro n h; omega
  | succ fuel ih =>
    intro n h
    by_cases h10 : n < 10
    · refine ⟨by simp [natDigitsAux, h10], ?_, by simp [natDigitsAux, h10]⟩
      intro d hd
      simp [natDigitsAux, h10] at hd
      omega
    · have hdiv : n / 10 < fuel := by
        have h1 : n / 10 < n := Nat.div_lt_self (by omega) (by omega)
        omega
      obtain ⟨hne, hlt, hfold⟩ := ih (n / 10) hdiv
      refine ⟨by simp [natDigitsAux, h10], ?_, ?_⟩
      · intro d hd
        simp [natDigitsAux, h10] at hd
        rcases hd with hd | hd
        · exact hlt d hd
        · omega
      · simp [natDigitsAux, h10, List.foldl_append, hfold]
        omega

/-- A digit character parses back to its digit value. -/
lemma digitVal?_digitChar (d : Nat) (h : d < 10) :
    digitVal? (digitChar d) = some d := by
  interval_cases d <;> rfl

/-- A digit character is not special, not a minus sign, and not a slash. -/
lemma digitChar_flags (d : Nat) (h : d < 10) :
    isSpecialChar (digitChar d) = false ∧ digitChar d ≠ '-' ∧ digitChar d ≠ '/' := by
  interval_cases d <;> refine ⟨by decide, by decide, by decide⟩

/-- Parsing the characters of a digit list folds the digits onto the
accumulator. -/
lemma parseNatAux_digits :
    ∀ (ds : List Nat), (∀ d ∈ ds, d < 10) → ∀ acc,
      parseNatAux (ds.map digitChar) acc =
        some (List.foldl (fun a d => a * 10 + d) acc ds) := by
  intro ds
  induction ds with
  | nil => intro _ acc; rfl
  | cons d ds ih =>
    intro h acc
    have hd : d < 10 := h d (by simp)
    simp only [List.map_cons, parseNatAux, digitVal?_digitChar d hd, List.foldl_cons]
    exact ih (fun x hx => h x (by simp [hx])) _

/-- Decimal text of a number is nonempty. -/
lemma natToChars_ne_nil (n : Nat) : natToChars n ≠ [] := by
  have h := (natDigitsAux_spec (n + 1) n (by omega)).1
  unfold natToChars natDigits
  simpa using h

/-- Every character of a number's decimal text is a digit character. -/
lemma natToChars_mem (n : Nat) (c : Char) (hc : c ∈ natToChars n) :
    ∃ d, d < 10 ∧ c = digitChar d := by
  unfold natToChars natDigits at hc
  obtain ⟨d, hd, rfl⟩ := List.mem_map.mp hc
  exact ⟨d, (natDigitsAux_spec (n + 1) n (by omega)).2.1 d hd, rfl⟩

/-- Numbers round-trip through their decimal text. -/
lemma parseNatChars_natToChars (n : Nat) : parseNatChars (natToChars n) = some n := by
  obtain ⟨hne, hlt, hfold⟩ := natDigitsAux_spec (n + 1) n (by omega)
  have hmap := parseNatAux_digits (natDigitsAux (n + 1) n) hlt 0
  unfold parseNatChars natToChars natDigits
  cases haux : natDigitsAux (n + 1) n with
  | nil => exact absurd haux hne
  | cons a as =>
    rw [haux] at hmap hfold
    simp only [List.map_cons, List.isEmpty_cons, if_false, Bool.false_eq_true]
    rw [← List.map_cons, hmap, hfold]

/-- Characters of an integer's text are digit characters or the minus sign. -/
lemma intToChars_mem (i : Int) (c : Char) (hc : c ∈ intToChars i) :
    c = '-' ∨ ∃ d, d < 10 ∧ c = digitChar d := by
  cases i with
  | ofNat n => exact Or.inr (natToChars_mem n c hc)
  | negSucc n =>
    rcases List.mem_cons.mp hc with rfl | hc'
    · exact Or.inl rfl
    · exact Or.inr (natToChars_mem (n + 1) c hc')

/-- Integers round-trip through their text. -/
lemma parseIntChars_intToChars (i : Int) : parseIntChars (intToChars i) = some i := by
  cases i with
  | ofNat n =>
    cases hn : natToChars n with
    | nil => exact absurd hn (natToChars_ne_nil n)
    | cons c cs =>
      have hc : c ≠ '-' := by
        obtain ⟨d, hd, rfl⟩ := natToChars_mem n c (by rw [hn]; simp)
        exact (digitChar_flags d hd).2.1
      show parseIntChars (natToChars n) = some (Int.ofNat n)
      rw [hn]
      simp only [parseIntChars, if_neg hc]
      rw [← hn, parseNatChars_natToChars]
      rfl
  | negSucc n =>
    show parseIntChars ('-' :: natToChars (n + 1)) = some (Int.negSucc n)
    simp only [parseIntChars, if_pos rfl, parseNatChars_natToChars]
    simp [Int.negSucc_eq]

/-! ## Lemmas: splitting and joining -/

/-- Splitting always yields at least one part. -/
lemma splitCh_ne_nil (sep : Char) : ∀ l, splitCh sep l ≠ [] := by
  intro l
  induction l with
  | nil => simp [splitCh]
  | cons c cs ih =>
    by_cases h : c = sep
    · simp [splitCh, h]
    · cases hs : splitCh sep cs with
      | nil => simp [splitCh, h, hs]
      | cons p ps => simp [splitCh, h, hs]

/-- A list free of the separator splits into just itself. -/
lemma splitCh_no_sep (sep : Char) : ∀ l, sep ∉ l → splitCh sep l = [l] := by
  intro l
  induction l with
  | nil => intro _; rfl
  | cons c cs ih =>
    intro h
    have hc : ¬(c = sep) := fun e => h (e ▸ List.mem_cons_self c cs)
    have hcs : sep ∉ cs := fun hm => h (List.mem_cons_of_mem _ hm)
    simp [splitCh, hc, ih hcs]

/-- Splitting past a separator-free part peels that part off. -/
lemma splitCh_append (sep : Char) :
    ∀ p rest, sep ∉ p →
      splitCh sep (p ++ sep :: rest) = p :: splitCh sep rest := by
  intro p
  induction p with
  | nil => intro rest _; simp [splitCh]
  | cons c p ih =>
    intro rest h
    have hc : ¬(c = sep) := fun e => h (e ▸ List.mem_cons_self c p)
    have hp : sep ∉ p := fun hm => h (List.mem_cons_of_mem _ hm)
    simp [splitCh, hc, ih rest hp]

/-- Splitting is a left inverse of joining for separator-free parts. -/
lemma splitCh_joinCh (sep : Char) :
    ∀ parts, parts ≠ [] → (∀ p ∈ parts, sep ∉ p) →
      splitCh sep (joinCh sep parts) = parts := by
  intro parts
  induction parts with
  | nil => intro h; exact absurd rfl h
  | cons p ps ih =>
    intro _ h
    cases ps with
    | nil => simpa [joinCh] using splitCh_no_sep sep p (h p (by simp))
    | cons q qs =>
      have hj : joinCh sep (p :: q :: qs) = p ++ sep :: joinCh sep (q :: qs) := rfl
      rw [hj, splitCh_append sep p _ (h p (by simp)),
          ih (by simp) (fun x hx => h x (by simp [hx]))]

/-- A character of a join is the separator or lies in some part. -/
lemma mem_joinCh (sep : Char) :
    ∀ parts (c : Char), c ∈ joinCh sep parts → c = sep ∨ ∃ p ∈ parts, c ∈ p := by
  intro parts
  induction parts with
  | nil => intro c h; simp [joinCh] at h
  | cons p ps ih =>
    intro c h
    cases ps with
    | nil => exact Or.inr ⟨p, by simp, by simpa [joinCh] using h⟩
    | cons q qs =>
      rw [show joinCh sep (p :: q :: qs) = p ++ sep :: joinCh sep (q :: qs) from rfl] at h
      rcases List.mem_append.mp h with h1 | h2
      · exact Or.inr ⟨p, by simp, h1⟩
      · rcases List.mem_cons.mp h2 with rfl | h3
        · exact Or.inl rfl
        · rcases ih c h3 with h4 | ⟨r, hr, hcr⟩
          · exact Or.inl h4
          · exact Or.inr ⟨r, by simp [hr], hcr⟩

/-- On a quote-free row the field scanner reduces to plain splitting at the
delimiter, with the accumulated prefix restored onto the first part. -/
lemma sfAux_out_no_quote :
    ∀ (row cur : List Char), '"' ∉ row →
      sfAux SfSt.out cur row =
        List.modifyHead (fun p => cur.reverse ++ p) (splitCh ',' row) := by
  intro row
  induction row with
  | nil => intro cur _; simp [sfAux, splitCh]
  | cons c cs ih =>
    intro cur h
    have hq : ¬(c = '"') := fun e => h (e ▸ List.mem_cons_self c cs)
    have hcs : '"' ∉ cs := fun hm => h (List.mem_cons_of_mem _ hm)
    by_cases hc : c = ','
    · subst hc
      cases hs : splitCh ',' cs with
      | nil => exact absurd hs (splitCh_ne_nil ',' cs)
      | cons p ps =>
        rw [show sfAux SfSt.out cur (',' :: cs) = cur.reverse :: sfAux SfSt.out [] cs
              from by simp [sfAux, hq]]
        rw [ih [] hcs, hs]
        simp [splitCh, hs]
    · rw [show sfAux SfSt.out cur (c :: cs) = sfAux SfSt.out (c :: cur) cs
            from by simp [sfAux, hq, hc]]
      rw [ih (c :: cur) hcs]
      cases hs : splitCh ',' cs with
      | nil => exact absurd hs (splitCh_ne_nil ',' cs)
      | cons p ps => simp [splitCh, hc, hs]

/-- On a quote-free row field splitting is plain splitting at the
delimiter. -/
lemma splitFields_no_quote (row : List Char) (h : '"' ∉ row) :
    splitFields row = splitCh ',' row := by
  unfold splitFields
  rw [sfAux_out_no_quote row [] h]
  cases hs : splitCh ',' row with
  | nil => exact absurd hs (splitCh_ne_nil ',' row)
  | cons p ps => simp

/-- A row without a carriage return is untouched by dropCR. -/
lemma dropCR_no_cr (l : List Char) (h : '\r' ∉ l) : dropCR l = l := by
  unfold dropCR
  cases hr : l.reverse with
  | nil => rfl
  | cons c rest =>
    have hc : ¬(c = '\r') := by
      intro e
      subst e
      exact h (List.mem_reverse.mp (hr ▸ List.mem_cons_self _ rest))
    simp [hc]

/-! ## Lemmas: clean fields and row round-trip -/

/-- Characterization of clean character lists. -/
lemma cleanChars_eq (l : List Char) :
    cleanChars l = true ↔ ∀ c ∈ l, isSpecialChar c = false := by
  simp [cleanChars, List.all_eq_true]

/-- A clean field is emitted verbatim. -/
lemma encodeField_clean (f : List Char) (hf : cleanChars f = true) :
    encodeField f = f := by
  have h : f.any isSpecialChar = false := by
    rw [List.any_eq_false]
    intro c hc
    simp [(cleanChars_eq f).mp hf c hc]
  simp [encodeField, h]

/-- No character of a number's text is special or a slash. -/
lemma natToChars_flags (n : Nat) :
    ∀ c ∈ natToChars n, isSpecialChar c = false ∧ c ≠ '/' := by
  intro c hc
  obtain ⟨d, hd, rfl⟩ := natToChars_mem n c hc
  exact ⟨(digitChar_flags d hd).1, (digitChar_flags d hd).2.2⟩

/-- No character of an integer's text is special or a slash. -/
lemma intToChars_flags (i : Int) :
    ∀ c ∈ intToChars i, isSpecialChar c = false ∧ c ≠ '/' := by
  intro c hc
  rcases intToChars_mem i c hc with rfl | ⟨d, hd, rfl⟩
  · exact ⟨by decide, by decide⟩
  · exact ⟨(digitChar_flags d hd).1, (digitChar_flags d hd).2.2⟩

/-- No character of a rational's text is special. -/
lemma ratToChars_not_special (q : ℚ) :
    ∀ c ∈ ratToChars q, isSpecialChar c = false := by
  intro c hc
  unfold ratToChars at hc
  rcases List.mem_append.mp hc with h1 | h2
  · exact (intToChars_flags q.num c h1).1
  · rcases List.mem_cons.mp h2 with rfl | h3
    · decide
    · exact (natToChars_flags q.den c h3).1

/-- A rational's text is clean. -/
lemma ratToChars_clean (q : ℚ) : cleanChars (ratToChars q) = true :=
  (cleanChars_eq _).mpr (ratToChars_not_special q)

/-- Rationals round-trip through their text. -/
lemma parseRatChars_ratToChars (q : ℚ) : parseRatChars (ratToChars q) = some q := by
  have hnum : '/' ∉ intToChars q.num :=
    fun hm => absurd rfl (intToChars_flags q.num '/' hm).2
  have hden : '/' ∉ natToChars q.den :=
    fun hm => absurd rfl (natToChars_flags q.den '/' hm).2
  unfold parseRatChars ratToChars
  rw [splitCh_append '/' _ _ hnum, splitCh_no_sep '/' _ hden]
  simp only [parseIntChars_intToChars, parseNatChars_natToChars]
  rw [if_neg q.den_nz]
  rw [Rat.mkRat_self]

/-- Species strings round-trip. -/
lemma speciesOfString_toString (sp : TreeSpecies) :
    speciesOfString (speciesToString sp) = sp := by
  cases sp <;> rfl

/-- Condition strings round-trip. -/
lemma healthOfString_toString (h : TreeHealth) :
    healthOfString (healthToString h) = h := by
  cases h <;> rfl

/-- Rebuilding a string from its characters gives the string back. -/
lemma string_mk_data (s : String) : String.mk s.data = s := by
  cases s
  rfl

/-- A species string is clean. -/
lemma speciesToString_clean (sp : TreeSpecies) :
    cleanChars (speciesToString sp).data = true := by
  cases sp <;> decide

/-- A condition string is clean. -/
lemma healthToString_clean (h : TreeHealth) :
    cleanChars (healthToString h).data = true := by
  cases h <;> decide

/-- With clean text fields, all seven encoded fields of a record are
clean. -/
lemma fieldsOf_clean (r : TreeRecord)
    (h1 : cleanChars r.id.data = true) (h2 : cleanChars r.dateAdded.data = true)
    (h3 : cleanChars r.notes.data = true) :
    ∀ f ∈ fieldsOf r, cleanChars f = true := by
  intro f hf
  unfold fieldsOf at hf
  simp only [List.mem_cons, List.not_mem_nil, or_false] at hf
  rcases hf with rfl | rfl | rfl | rfl | rfl | rfl | rfl
  · exact h1
  · exact ratToChars_clean r.lat
  · exact ratToChars_clean r.lng
  · exact speciesToString_clean r.species
  · exact healthToString_clean r.condition
  · exact h2
  · exact h3

/-- Mapping field encoding over clean fields changes nothing. -/
lemma map_encodeField_clean (fs : List (List Char))
    (h : ∀ f ∈ fs, cleanChars f = true) : fs.map encodeField = fs := by
  induction fs with
  | nil => rfl
  | cons f fs ih =>
    rw [List.map_cons, encodeField_clean f (h f (by simp)),
        ih (fun x hx => h x (by simp [hx]))]

/-- A character of a row over clean fields is the delimiter or clean; in
particular it is never a quote, a line feed, or a carriage return. -/
lemma rowChars_char (r : TreeRecord)
    (h1 : cleanChars r.id.data = true) (h2 : cleanChars r.dateAdded.data = true)
    (h3 : cleanChars r.notes.data = true) :
    '"' ∉ rowChars r ∧ '\n' ∉ rowChars r ∧ '\r' ∉ rowChars r := by
  have hclean := fieldsOf_clean r h1 h2 h3
  have key : ∀ c, c ∈ rowChars r → c = ',' ∨ isSpecialChar c = false := by
    intro c hc
    unfold rowChars at hc
    rw [map_encodeField_clean (fieldsOf r) hclean] at hc
    rcases mem_joinCh ',' (fieldsOf r) c hc with h | ⟨p, hp, hcp⟩
    · exact Or.inl h
    · exact Or.inr ((cleanChars_eq p).mp (hclean p hp) c hcp)
  refine ⟨fun hm => ?_, fun hm => ?_, fun hm => ?_⟩ <;>
    rcases key _ hm with h | h <;> simp_all [isSpecialChar]

/-- Parsing an encoded row of a record with clean text fields recovers the
record. -/
lemma parseRow_rowChars (r : TreeRecord)
    (h1 : cleanChars r.id.data = true) (h2 : cleanChars r.dateAdded.data = true)
    (h3 : cleanChars r.notes.data = true) :
    parseRow (rowChars r) = some r := by
  have hclean := fieldsOf_clean r h1 h2 h3
  have hnq : '"' ∉ rowChars r := (rowChars_char r h1 h2 h3).1
  have hsplit : splitFields (rowChars r) = fieldsOf r := by
    rw [splitFields_no_quote _ hnq]
    unfold rowChars
    rw [map_encodeField_clean (fieldsOf r) hclean]
    refine splitCh_joinCh ',' (fieldsOf r) (by simp [fieldsOf]) ?_
    intro p hp hmem
    have := (cleanChars_eq p).mp (hclean p hp) ',' hmem
    simp [isSpecialChar] at this
  unfold parseRow
  rw [hsplit]
  show parseFields [r.id.data, ratToChars r.lat, ratToChars r.lng,
    (speciesToString r.species).data, (healthToString r.condition).data,
    r.dateAdded.data, r.notes.data] = some r
  simp only [parseFields, parseRatChars_ratToChars, string_mk_data,
    speciesOfString_toString, healthOfString_toString]

/-- Parsing the encoded rows of a clean point list recovers the list. -/
lemma filterMap_rows (P : List TreeRecord)
    (h : ∀ r ∈ P, cleanChars r.id.data = true ∧ cleanChars r.dateAdded.data = true ∧
      cleanChars r.notes.data = true) :
    ((P.map rowChars).map dropCR).filterMap parseRow = P := by
  induction P with
  | nil => rfl
  | cons r rs ih =>
    obtain ⟨h1, h2, h3⟩ := h r (by simp)
    simp only [List.map_cons, List.filterMap_cons]
    rw [dropCR_no_cr _ (rowChars_char r h1 h2 h3).2.2,
        parseRow_rowChars r h1 h2 h3,
        ih (fun x hx => h x (by simp [hx]))]

/-- Decoding the encoding of a clean point list recovers the list. -/
lemma parseCSV_generateCSV (P : List TreeRecord)
    (h : ∀ r ∈ P, cleanChars r.id.data = true ∧ cleanChars r.dateAdded.data = true ∧
      cleanChars r.notes.data = true) :
    parseCSV (generateCSV P) = P := by
  have rowlf : ∀ l ∈ (headerChars :: P.map rowChars), '\n' ∉ l := by
    intro l hl
    rcases List.mem_cons.mp hl with rfl | hl'
    · decide
    · obtain ⟨r, hr, rfl⟩ := List.mem_map.mp hl'
      obtain ⟨hc1, hc2, hc3⟩ := h r hr
      exact (rowChars_char r hc1 hc2 hc3).2.1
  unfold parseCSV generateCSV
  rw [show (String.mk (joinCh '\n' (headerChars :: P.map rowChars))).data =
        joinCh '\n' (headerChars :: P.map rowChars) from rfl,
      splitCh_joinCh '\n' _ (by simp) rowlf]
  simp only [List.map_cons, List.drop_succ_cons, List.drop_zero]
  exact filterMap_rows P h

/-! ## Claims -/

/-- Claim C1: for every point list whose text fields contain none of the
format's delimiter, quote or line-break characters, decoding the encoding
(parseCSV of generateCSV) yields a list equal to the original. -/
theorem decode_encode_roundtrip (P : List TreeRecord)
    (h : ∀ r ∈ P, cleanChars r.id.data = true ∧ cleanChars r.dateAdded.data = true ∧
      cleanChars r.notes.data = true) :
    parseCSV (generateCSV P) = P :=
  parseCSV_generateCSV P h

/-- Witness for C1 at a concrete one-record list with clean text fields. -/
theorem decode_encode_roundtrip_witness :
    (∀ r ∈ [recW], cleanChars r.id.data = true ∧ cleanChars r.dateAdded.data = true ∧
      cleanChars r.notes.data = true) ∧
      parseCSV (generateCSV [recW]) = [recW] :=
  ⟨by decide, decode_encode_roundtrip [recW] (by decide)⟩

/-- Claim C2 counterexample: importing two records that share one fresh
identifier appends both of them, so the store grows by two although only
one genuinely new identifier is imported — the de-duplication is not
set-based within the imported list. -/
theorem import_growth_not_new_id_count :
    (handleImport [dupRec, dupRec] baseApp).trees.length =
        baseApp.trees.length + 2 ∧
      newIdCount [dupRec, dupRec] baseApp.trees = 1 := by
  exact ⟨by decide, by decide⟩

/-- Claim C2 (amended): import appends exactly the imported records whose
identifier is not already present in the store, leaves every previously
stored record unchanged in place, and grows the store by the number of
such records (imported records sharing a new identifier are each
appended, so the growth can exceed the count of distinct new
identifiers). -/
theorem handleImport_appends_new (importedTrees : List TreeRecord) (s : AppState) :
    (handleImport importedTrees s).trees =
        s.trees ++ importedTrees.filter
          (fun t => !((s.trees.map TreeRecord.id).contains t.id)) ∧
      (handleImport importedTrees s).trees.take s.trees.length = s.trees ∧
      (handleImport importedTrees s).trees.length =
        s.trees.length + (importedTrees.filter
          (fun t => !((s.trees.map TreeRecord.id).contains t.id))).length := by
  have key : (handleImport importedTrees s).trees =
      s.trees ++ importedTrees.filter
        (fun t => !((s.trees.map TreeRecord.id).contains t.id)) := by
    unfold handleImport
    by_cases h : importedTrees.length = 0
    · rw [List.length_eq_zero] at h
      subst h
      simp
    · simp [h]
  refine ⟨key, ?_, ?_⟩ <;> rw [key]
  · exact List.take_left s.trees _
  · exact List.length_append _ _

/-- Claim C3: saving with a pending location appends, after all existing
records, one record carrying the fresh identifier (unique in the resulting
store given that the generated identifier is unused), the pending
coordinates, the chosen species and condition — both members of their
fixed enumerations — and the current date. -/
theorem handleSaveTree_appends_fresh (s : AppState) (loc : MapLocation)
    (data : SavePayload) (freshId today : String)
    (hloc : s.tempLocation = some loc)
    (hfresh : ∀ t ∈ s.trees, t.id ≠ freshId) :
    (handleSaveTree freshId today data s).trees =
        s.trees ++ [{ id := freshId, lat := loc.lat, lng := loc.lng,
                      species := data.species, condition := data.condition,
                      dateAdded := today, notes := data.notes }] ∧
      ((handleSaveTree freshId today data s).trees.filter
        (fun t => t.id == freshId)).length = 1 ∧
      data.species ∈ [TreeSpecies.OAK, TreeSpecies.MAPLE, TreeSpecies.PINE,
        TreeSpecies.PALM, TreeSpecies.CHERRY, TreeSpecies.BIRCH,
        TreeSpecies.OTHER, TreeSpecies.UNKNOWN] ∧
      data.condition ∈ [TreeHealth.GOOD, TreeHealth.FAIR,
        TreeHealth.CRITICAL, TreeHealth.DEAD] := by
  have key : (handleSaveTree freshId today data s).trees =
      s.trees ++ [{ id := freshId, lat := loc.lat, lng := loc.lng,
                    species := data.species, condition := data.condition,
                    dateAdded := today, notes := data.notes }] := by
    unfold handleSaveTree
    rw [hloc]
  refine ⟨key, ?_, ?_, ?_⟩
  · rw [key, List.filter_append]
    have hnil : s.trees.filter (fun t => t.id == freshId) = [] := by
      rw [List.filter_eq_nil_iff]
      intro t ht
      simpa using hfresh t ht
    rw [hnil]
    simp
  · cases data.species <;> simp
  · cases data.condition <;> simp

/-- Witness for C3 at a concrete state with one stored record and a pending
location. -/
theorem handleSaveTree_appends_fresh_witness :
    (pendingApp.tempLocation = some locW ∧ ∀ t ∈ pendingApp.trees, t.id ≠ "b") ∧
      (handleSaveTree "b" "2024-05-05" payloadW pendingApp).trees =
        pendingApp.trees ++
          [{ id := "b", lat := locW.lat, lng := locW.lng,
             species := payloadW.species, condition := payloadW.condition,
             dateAdded := "2024-05-05", notes := payloadW.notes }] :=
  ⟨⟨rfl, by decide⟩,
    (handleSaveTree_appends_fresh pendingApp locW payloadW "b" "2024-05-05"
      rfl (by decide)).1⟩

/-- Claim C4: decoding a document drops exactly the rows that fail to
parse and keeps the records of all other rows: a row with a wrong field
count or an unparseable coordinate yields none and is omitted by the
row-wise filter, a row with seven fields and parseable coordinates yields
a record even when its species or condition string is unknown — those
fall back to the sentinel values instead of dropping the row. -/
theorem decode_skips_malformed_rows (hdr : List Char) (rows : List (List Char))
    (hh : '\n' ∉ hdr) (hr : ∀ r ∈ rows, '\n' ∉ r) :
    parseCSV (String.mk (joinCh '\n' (hdr :: rows))) =
        rows.filterMap (fun r => parseRow (dropCR r)) ∧
      (∀ fs : List (List Char), fs.length ≠ 7 → parseFields fs = none) ∧
      (∀ f0 f1 f2 f3 f4 f5 f6 : List Char,
        parseRatChars f1 = none ∨ parseRatChars f2 = none →
        parseFields [f0, f1, f2, f3, f4, f5, f6] = none) ∧
      (∀ f0 f1 f2 f3 f4 f5 f6 la ln, parseRatChars f1 = some la →
        parseRatChars f2 = some ln →
        parseFields [f0, f1, f2, f3, f4, f5, f6] =
          some { id := String.mk f0, lat := la, lng := ln,
                 species := speciesOfString (String.mk f3),
                 condition := healthOfString (String.mk f4),
                 dateAdded := String.mk f5, notes := String.mk f6 }) ∧
      (∀ s : String, s ≠ "Oak" → s ≠ "Maple" → s ≠ "Pine" → s ≠ "Palm" →
        s ≠ "Cherry" → s ≠ "Birch" → s ≠ "Other" →
        speciesOfString s = TreeSpecies.UNKNOWN) ∧
      (∀ s : String, s ≠ "Good" → s ≠ "Fair" → s ≠ "Critical" → s ≠ "Dead" →
        healthOfString s = TreeHealth.GOOD) := by
  refine ⟨?_, ?_, ?_, ?_, ?_, ?_⟩
  · unfold parseCSV
    rw [show (String.mk (joinCh '\n' (hdr :: rows))).data =
          joinCh '\n' (hdr :: rows) from rfl,
        splitCh_joinCh '\n' _ (by simp) ?hparts]
    case hparts =>
      intro p hp
      rcases List.mem_cons.mp hp with rfl | hp'
      · exact hh
      · exact hr p hp'
    simp only [List.map_cons, List.drop_succ_cons, List.drop_zero]
    rw [List.filterMap_map]
    rfl
  · intro fs h
    rcases fs with _ | ⟨f0, _ | ⟨f1, _ | ⟨f2, _ | ⟨f3, _ | ⟨f4, _ | ⟨f5, _ |
      ⟨f6, _ | ⟨f7, rest⟩⟩⟩⟩⟩⟩⟩⟩ <;> first | rfl | simp at h
  · intro f0 f1 f2 f3 f4 f5 f6 h
    cases hf1 : parseRatChars f1 <;> cases hf2 : parseRatChars f2 <;>
      simp_all [parseFields]
  · intro f0 f1 f2 f3 f4 f5 f6 la ln hf1 hf2
    simp [parseFields, hf1, hf2]
  · intro s h1 h2 h3 h4 h5 h6 h7
    simp [speciesOfString, h1, h2, h3, h4, h5, h6, h7]
  · intro s h1 h2 h3 h4
    simp [healthOfString, h1, h2, h3, h4]

/-- Witness for C4: a concrete document with one good row, a short row, a
row with an unparseable coordinate, an unknown-species row, and a trailing
blank line decodes to the good row's record and the sentinel-species
record. -/
theorem decode_skips_malformed_rows_witness :
    ('\n' ∉ "id,lat,lng,species,condition,dateAdded,notes".data ∧
      (∀ r ∈ [ "a,5/1,6/1,Oak,Good,d,x".data, "bad,row".data,
        "b,zz,6/1,Oak,Good,d,x".data, "c,5/1,6/1,Baobab,Odd,d,y".data,
        ([] : List Char)], '\n' ∉ r)) ∧
      parseCSV (String.mk (joinCh '\n'
        ([ "id,lat,lng,species,condition,dateAdded,notes".data,
          "a,5/1,6/1,Oak,Good,d,x".data, "bad,row".data,
          "b,zz,6/1,Oak,Good,d,x".data, "c,5/1,6/1,Baobab,Odd,d,y".data,
          ([] : List Char)]))) =
        [{ id := "a", lat := mkRat 5 1, lng := mkRat 6 1,
           species := TreeSpecies.OAK, condition := TreeHealth.GOOD,
           dateAdded := "d", notes := "x" },
         { id := "c", lat := mkRat 5 1, lng := mkRat 6 1,
           species := TreeSpecies.UNKNOWN, condition := TreeHealth.GOOD,
           dateAdded := "d", notes := "y" }] :=
  ⟨⟨by decide, by decide⟩,
    ((decode_skips_malformed_rows
      ( "id,lat,lng,species,condition,dateAdded,notes".data)
      [ "a,5/1,6/1,Oak,Good,d,x".data, "bad,row".data,
        "b,zz,6/1,Oak,Good,d,x".data, "c,5/1,6/1,Baobab,Odd,d,y".data,
        ([] : List Char)] (by decide) (by decide)).1).trans (by decide)⟩

/-- Claim C5: with the viewer library available (and a constructed viewer
eventually firing its load event), every coordinate change starts the run
in the searching status and ends it in exactly one of ready, no-coverage
or error; ready is reached only when the lookup found an image identifier
and either the relocation of an existing viewer or the construction of a
fresh one succeeded. -/
theorem streetView_status_transitions (e : SceneEnv)
    (hs : e.scriptLoaded = true)
    (hl : e.constructSucceeds = true → e.loadFires = true) :
    (sceneTrace e).head? = some Status.searching ∧
      sceneFinal e ∈ [Status.ready, Status.noCoverage, Status.error] ∧
      (sceneFinal e = Status.ready →
        (∃ i, e.lookup = LookupResult.found i) ∧
          (e.viewerExists = true ∧ e.moveSucceeds = true ∨
            e.constructSucceeds = true)) := by
  rcases e with ⟨sl, lk, ve, mv, cs, lf⟩
  simp only at hs hl
  subst hs
  cases lk with
  | notFound => simp [sceneTrace, sceneFinal]
  | fetchFailed => simp [sceneTrace, sceneFinal]
  | found i =>
    cases cs with
    | true =>
      have hlf : lf = true := hl rfl
      subst hlf
      cases ve <;> cases mv <;>
        simp [sceneTrace, sceneFinal, constructTrace]
    | false =>
      cases ve <;> cases mv <;>
        simp [sceneTrace, sceneFinal, constructTrace]

/-- Witness for C5 at a concrete run with a found image and a successful
construction. -/
theorem streetView_status_transitions_witness :
    (sceneOkEnv.scriptLoaded = true ∧
      (sceneOkEnv.constructSucceeds = true → sceneOkEnv.loadFires = true)) ∧
      ((sceneTrace sceneOkEnv).head? = some Status.searching ∧
        sceneFinal sceneOkEnv ∈ [Status.ready, Status.noCoverage, Status.error] ∧
        (sceneFinal sceneOkEnv = Status.ready →
          (∃ i, sceneOkEnv.lookup = LookupResult.found i) ∧
            (sceneOkEnv.viewerExists = true ∧ sceneOkEnv.moveSucceeds = true ∨
              sceneOkEnv.constructSucceeds = true))) :=
  ⟨⟨rfl, fun _ => rfl⟩,
    streetView_status_transitions sceneOkEnv rfl (fun _ => rfl)⟩

/-- Claim C6 counterexample: in a run where relocating the existing viewer
fails (and the reconstruction the code then attempts also fails), the
status does transition to error and the viewer is not left in its prior
state — it was removed and recreation was attempted. -/
theorem relocation_failure_reaches_error :
    sceneFinal moveFailEnv = Status.error ∧
      viewerAfter moveFailEnv ≠ ViewerFate.untouched ∧
      viewerAfter moveFailEnv ≠ ViewerFate.relocated := by
  exact ⟨by decide, by decide, by decide⟩

/-- Claim C6 (amended): a relocation failure is caught and logged as a
warning rather than surfaced directly, but the existing viewer is removed
and reconstructed from the found image identifier instead of being left in
its prior state; the run continues through the loading-viewer status, ends
in error when the reconstruction throws, and in ready when it succeeds and
the viewer loads. -/
theorem relocation_failure_recreates_viewer (e : SceneEnv)
    (hs : e.scriptLoaded = true) (hv : e.viewerExists = true)
    (hm : e.moveSucceeds = false)
    (himg : ∃ i, e.lookup = LookupResult.found i) :
    moveWarned e = true ∧
      viewerAfter e ≠ ViewerFate.untouched ∧
      viewerAfter e ≠ ViewerFate.relocated ∧
      Status.loadingViewer ∈ sceneTrace e ∧
      (e.constructSucceeds = false → sceneFinal e = Status.error) ∧
      (e.constructSucceeds = true → e.loadFires = true →
        sceneFinal e = Status.ready) := by
  obtain ⟨i, hi⟩ := himg
  rcases e with ⟨sl, lk, ve, mv, cs, lf⟩
  simp only at hs hv hm hi
  subst hs
  subst hv
  subst hm
  subst hi
  cases cs <;> cases lf <;>
    simp [moveWarned, viewerAfter, sceneTrace, sceneFinal, constructTrace]

/-- Witness for C6 (amended) at the concrete failed-relocation run. -/
theorem relocation_failure_recreates_viewer_witness :
    (moveFailEnv.scriptLoaded = true ∧ moveFailEnv.viewerExists = true ∧
      moveFailEnv.moveSucceeds = false ∧
      (∃ i, moveFailEnv.lookup = LookupResult.found i)) ∧
      (moveWarned moveFailEnv = true ∧
        viewerAfter moveFailEnv ≠ ViewerFate.untouched ∧
        viewerAfter moveFailEnv ≠ ViewerFate.relocated ∧
        Status.loadingViewer ∈ sceneTrace moveFailEnv ∧
        (moveFailEnv.constructSucceeds = false →
          sceneFinal moveFailEnv = Status.error) ∧
        (moveFailEnv.constructSucceeds = true → moveFailEnv.loadFires = true →
          sceneFinal moveFailEnv = Status.ready)) :=
  ⟨⟨rfl, rfl, rfl, ⟨"img2", rfl⟩⟩,
    relocation_failure_recreates_viewer moveFailEnv rfl rfl rfl ⟨"img2", rfl⟩⟩

/-- Claim C7: a map click in split mode only moves the street-level focus
— the annotation form state is untouched; a map click in map-only mode
records the pending location and opens the annotation form, leaving the
street-level focus unchanged. -/
theorem handleMapClick_routes (loc : MapLocation) (s : AppState) :
    (s.viewMode = ViewMode.street →
        (handleMapClick loc s).streetViewPos = loc ∧
        (handleMapClick loc s).isModalOpen = s.isModalOpen ∧
        (handleMapClick loc s).tempLocation = s.tempLocation) ∧
      (s.viewMode = ViewMode.map →
        (handleMapClick loc s).tempLocation = some loc ∧
        (handleMapClick loc s).isModalOpen = true ∧
        (handleMapClick loc s).streetViewPos = s.streetViewPos) := by
  constructor <;> intro h <;> simp [handleMapClick, h]

/-- Witness for C7 in both layout modes at concrete states. -/
theorem handleMapClick_routes_witness :
    (streetApp.viewMode = ViewMode.street ∧
      (handleMapClick locW streetApp).streetViewPos = locW ∧
      (handleMapClick locW streetApp).isModalOpen = streetApp.isModalOpen ∧
      (handleMapClick locW streetApp).tempLocation = streetApp.tempLocation) ∧
      (baseApp.viewMode = ViewMode.map ∧
        (handleMapClick locW baseApp).tempLocation = some locW ∧
        (handleMapClick locW baseApp).isModalOpen = true ∧
        (handleMapClick locW baseApp).streetViewPos = baseApp.streetViewPos) :=
  ⟨⟨rfl, (handleMapClick_routes locW streetApp).1 rfl⟩,
    ⟨rfl, (handleMapClick_routes locW baseApp).2 rfl⟩⟩

/-- Claim C8: toggling from map-only to split enters split mode and sets
the street-level position to the last known device location, and to the
fixed default coordinate (28.6328, 77.2197) when no device location is
known. -/
theorem toggleViewMode_centers (s : AppState) (h : s.viewMode = ViewMode.map) :
    (toggleViewMode s).viewMode = ViewMode.street ∧
      (toggleViewMode s).streetViewPos = s.userLocation.getD DEFAULT_CENTER ∧
      (s.userLocation = none →
        (toggleViewMode s).streetViewPos = { lat := 28.6328, lng := 77.2197 }) ∧
      (∀ u, s.userLocation = some u → (toggleViewMode s).streetViewPos = u) := by
  refine ⟨by simp [toggleViewMode, h], by simp [toggleViewMode, h], ?_, ?_⟩
  · intro hu
    simp [toggleViewMode, h, hu]
    rfl
  · intro u hu
    simp [toggleViewMode, h, hu]

/-- Witness for C8 at concrete states without and with a device
location. -/
theorem toggleViewMode_centers_witness :
    (baseApp.viewMode = ViewMode.map ∧ baseApp.userLocation = none ∧
      (toggleViewMode baseApp).viewMode = ViewMode.street ∧
      (toggleViewMode baseApp).streetViewPos = { lat := 28.6328, lng := 77.2197 }) ∧
      (userApp.viewMode = ViewMode.map ∧ userApp.userLocation = some locW ∧
        (toggleViewMode userApp).streetViewPos = locW) :=
  ⟨⟨rfl, rfl, (toggleViewMode_centers baseApp rfl).1,
      (toggleViewMode_centers baseApp rfl).2.2.1 rfl⟩,
    ⟨rfl, rfl, (toggleViewMode_centers userApp rfl).2.2.2 locW rfl⟩⟩

/-- Claim C9: a submit while a location is pending emits exactly one
payload of the selected species, condition and notes and resets the form's
selections to the defaults (species Unknown, condition Good, empty
notes); with no pending location the form renders nothing, emits nothing
and keeps its state; cancel closes the modal and discards the pending
location without touching the stored records. -/
theorem annotationModal_contract (loc0 : MapLocation) (isOpen : Bool)
    (ms : ModalState) (s : AppState) :
    modalSubmit true (some loc0) ms =
        (some { species := ms.species, condition := ms.condition,
                notes := ms.notes }, defaultModalState) ∧
      defaultModalState =
        { species := TreeSpecies.UNKNOWN, condition := TreeHealth.GOOD,
          notes := "" } ∧
      modalSubmit isOpen none ms = (none, ms) ∧
      modalVisible isOpen none = false ∧
      (handleCloseModal s).tempLocation = none ∧
      (handleCloseModal s).isModalOpen = false ∧
      (handleCloseModal s).trees = s.trees := by
  refine ⟨rfl, rfl, ?_, ?_, rfl, rfl, rfl⟩ <;> cases isOpen <;> rfl

/-- Claim C10: importing an empty decoded list changes nothing but the
notification: the tree list, the durable storage snapshot and every other
state component are unchanged, and the no-valid-records toast is shown. -/
theorem handleImport_empty_frame (s : AppState) :
    (handleImport [] s).trees = s.trees ∧
      storageSnapshot (handleImport [] s) = storageSnapshot s ∧
      (handleImport [] s).notification = some noValidMsg ∧
      (handleImport [] s).tempLocation = s.tempLocation ∧
      (handleImport [] s).isModalOpen = s.isModalOpen ∧
      (handleImport [] s).viewMode = s.viewMode ∧
      (handleImport [] s).streetViewPos = s.streetViewPos ∧
      (handleImport [] s).userLocation = s.userLocation := by
  exact ⟨rfl, rfl, rfl, rfl, rfl, rfl, rfl, rfl⟩
